import Mathlib

/-!
Verification of the request dispatchers of the `laravel-php-codesniffer`
extension: `DiagnosticUpdater.update` (src/unnamed/part_000) and
`CodeActionEditResolver.resolve` (src/services/code-action-edit-resolver.ts).

Each dispatcher is a promise chain over external collaborators
(the cancellation-token registry, the configuration service, the worker
pool and the worker).  We embed each dispatcher as a pure function from an
explicit environment -- the results the collaborators would return -- to a
trace of the observable effects the dispatcher performs (status updates,
collection mutations, logging, pool requests) together with an `Except`
outcome (`.ok` when the returned promise resolves, `.error e` when the
dispatcher re-throws `e`).
-/

/-- A document URI; only its file-system path is observable here. -/
structure Uri where
  fsPath : String
deriving DecidableEq, Repr

/-- The slice of `vscode.TextDocument` the dispatchers read:
`uri`, `fileName` and `getText()` (stored as `text`). -/
structure TextDocument where
  uri : Uri
  fileName : String
  text : String
deriving DecidableEq, Repr

/-- A zero-based position, as in `vscode.Position`. -/
structure Position where
  line : Nat
  character : Nat
deriving DecidableEq, Repr

/-- A range; the dispatchers only read `start`. -/
structure Range where
  start : Position
deriving DecidableEq, Repr

/-- The slice of `vscode.Diagnostic` the dispatchers read: the rule `code`
and the `range`. -/
structure Diagnostic where
  code : String
  range : Range
deriving DecidableEq, Repr

/-- A text edit produced by the fix report; its content is opaque to the
dispatchers. -/
structure TextEdit where
  newText : String
deriving DecidableEq, Repr

/-- A `vscode.WorkspaceEdit`: `new WorkspaceEdit()` followed by
`edit.set(uri, edits)` yields one entry. -/
structure WorkspaceEdit where
  entries : List (Uri × List TextEdit)
deriving DecidableEq, Repr

/-- The code-action kinds used by the updater. -/
inductive CodeActionKind where
  | quickFix
  | other (name : String)
deriving DecidableEq, Repr

/-- The command attached to an ignore-line quick fix: title, command id,
and the argument triple `[document, diagnostic.code, line]`. -/
structure Command where
  title : String
  command : String
  argDocument : TextDocument
  argCode : String
  argLine : Nat
deriving DecidableEq, Repr

/-- The extension's `CodeAction` (from `../types`): a `vscode.CodeAction`
plus a `document` field used by the resolver. -/
structure CodeAction where
  title : String
  kind : CodeActionKind
  diagnostics : Option (List Diagnostic)
  command : Option Command
  edit : Option WorkspaceEdit
  document : Option TextDocument
deriving DecidableEq, Repr

/-- `IgnoreLineCommand.COMMAND` is a fixed command identifier; its exact
string is opaque to every claim, so any constant is faithful. -/
def ignoreLineCommandId : String := "phpCodeSniffer.ignoreLine"

/-- The lint actions of the `Configuration` service (the package manifest
enumerates exactly `Change` and `Save`). -/
inductive LintAction where
  | change
  | save
deriving DecidableEq, Repr

/-- An exclude pattern: the dispatcher only calls `pattern.test(path)`. -/
structure Pattern where
  test : String → Bool

/-- The configuration values `update` and `resolve` read. -/
structure PhpcsConfiguration where
  exclude : List Pattern
  lintAction : LintAction
  executable : String
  standard : String

/-- The typed failures that can reach a dispatcher's catch handler:
`CancellationError`, `ConfigurationError`, `PHPCSError`, the private
`UpdatePreventedError`, and any unknown error. -/
inductive DispatchError where
  | cancellation
  | configuration (message : String)
  | phpcs (message : String)
  | updatePrevented
  | unknown (message : String)
deriving DecidableEq, Repr

/-- The options block of a worker request. -/
structure RequestOptions where
  executable : String
  standard : String
deriving DecidableEq, Repr

/-- A `Request<ReportType.Diagnostic>` (its `data` field is `null`). -/
structure DiagnosticRequest where
  workingDirectory : String
  documentPath : String
  documentContent : String
  options : RequestOptions
deriving DecidableEq, Repr

/-- The `data` payload of a `Request<ReportType.CodeAction>`. -/
structure CodeActionData where
  code : String
  line : Nat
  character : Nat
deriving DecidableEq, Repr

/-- A `Request<ReportType.CodeAction>`. -/
structure CodeActionRequest where
  workingDirectory : String
  documentPath : String
  documentContent : String
  options : RequestOptions
  data : CodeActionData
deriving DecidableEq, Repr

/-- The report of a diagnostic response (`response.report`, when present). -/
structure DiagnosticReport where
  diagnostics : List Diagnostic
  codeActions : List CodeAction
deriving DecidableEq, Repr

/-- The report of a code-action response (`response.report`, when present). -/
structure CodeActionReport where
  edits : List TextEdit
deriving DecidableEq, Repr

/-- One observable effect of a dispatcher run, in program order. -/
inductive Event where
  | linterStart
  | linterStop
  | getConfiguration
  | diagnosticsDelete
  | codeActionsDelete
  | diagnosticsSet (diagnostics : List Diagnostic)
  | codeActionsSet (actions : List CodeAction)
  | deleteCancellationToken
  | waitForAvailable (key : String)
  | executeDiagnostic (request : DiagnosticRequest)
  | executeCodeAction (request : CodeActionRequest)
  | logError (e : DispatchError)
deriving DecidableEq, Repr

/-- The collaborator results a single `DiagnosticUpdater.update` call
observes: the token from `createCancellationToken` (or `none` when the
registry refuses), the settled result of `configuration.get`, the
workspace folder, and the settled results of `workerPool.waitForAvailable`
and `worker.execute`. -/
structure UpdateEnv where
  token : Option Unit
  configResult : Except DispatchError PhpcsConfiguration
  workspaceUri : Uri
  poolResult : Except DispatchError Unit
  executeResult : Except DispatchError (Option DiagnosticReport)

/-- The collaborator results a single `CodeActionEditResolver.resolve`
call observes; `configResult` is the first `configuration.get` (with the
token) and `configResult2` the second one (inside the worker step). -/
structure ResolveEnv where
  token : Option Unit
  configResult : Except DispatchError PhpcsConfiguration
  workspaceUri : Uri
  poolResult : Except DispatchError Unit
  configResult2 : Except DispatchError PhpcsConfiguration
  executeResult : Except DispatchError (Option CodeActionReport)

namespace DiagnosticUpdater

/-- `clearDocument`: delete the document's entries from the diagnostic
collection and from the code-action collection. -/
def clearDocumentEvents : List Event :=
  [Event.diagnosticsDelete, Event.codeActionsDelete]

/-- `buildDiagnosticCodeActions`: one ignore-line quick fix per
diagnostic, in order. -/
def buildDiagnosticCodeActions (document : TextDocument)
    (diagnostics : List Diagnostic) : List CodeAction :=
  diagnostics.map fun diagnostic =>
    { title := "Ignore " ++ diagnostic.code ++ " for this line"
      kind := CodeActionKind.quickFix
      diagnostics := some [diagnostic]
      command := some
        { title := "Ignore Laravel PHP_CodeSniffer"
          command := ignoreLineCommandId
          argDocument := document
          argCode := diagnostic.code
          argLine := diagnostic.range.start.line }
      edit := none
      document := none }

/-- The `switch (lintAction)` guard: an update triggered by `Change` is
prevented when the configured action is `Save`, and one triggered by
`Save` is prevented when the configured action is `Change`. -/
def preventedByLintAction (trigger configured : LintAction) : Bool :=
  match trigger, configured with
  | LintAction.change, LintAction.save => true
  | LintAction.save, LintAction.change => true
  | _, _ => false

/-- The diagnostic request built inside the worker step. -/
def diagnosticRequest (env : UpdateEnv) (document : TextDocument)
    (config : PhpcsConfiguration) : DiagnosticRequest :=
  { workingDirectory := env.workspaceUri.fsPath
    documentPath := document.uri.fsPath
    documentContent := document.text
    options := { executable := config.executable, standard := config.standard } }

/-- The promise chain of `update` from `configuration.get` up to and
including `worker.execute`: the trace of effects it performs and either
the response's optional report or the error with which it rejects. -/
def updateChain (env : UpdateEnv) (document : TextDocument)
    (lintAction : LintAction) :
    List Event × Except DispatchError (Option DiagnosticReport) :=
  match env.configResult with
  | Except.error e => ([Event.getConfiguration], Except.error e)
  | Except.ok config =>
    if config.exclude.any fun pattern => pattern.test document.uri.fsPath then
      (Event.getConfiguration :: clearDocumentEvents,
        Except.error DispatchError.updatePrevented)
    else if preventedByLintAction lintAction config.lintAction then
      ([Event.getConfiguration], Except.error DispatchError.updatePrevented)
    else
      match env.poolResult with
      | Except.error e =>
        ([Event.getConfiguration,
          Event.waitForAvailable ("diagnostic:" ++ document.fileName)],
          Except.error e)
      | Except.ok _ =>
        ([Event.getConfiguration,
          Event.waitForAvailable ("diagnostic:" ++ document.fileName),
          Event.executeDiagnostic (diagnosticRequest env document config)],
          env.executeResult)

/-- The success handler of `update`: delete the cancellation token, stop
the linter status, then clear the collections when the report is absent or
replace their entries when it is present. -/
def updateOnResponse (document : TextDocument)
    (report? : Option DiagnosticReport) : List Event :=
  Event.deleteCancellationToken :: Event.linterStop ::
    match report? with
    | none => clearDocumentEvents
    | some report =>
      [Event.diagnosticsSet report.diagnostics,
       Event.codeActionsSet
         (report.codeActions ++ buildDiagnosticCodeActions document report.diagnostics)]

/-- The catch handler of `update`: cancellation returns silently before
the status update; every other class first stops the linter status, then
configuration and PHPCS errors are logged, prevented updates are
swallowed, and anything else is re-thrown. -/
def updateCatch (e : DispatchError) : List Event × Except DispatchError Unit :=
  match e with
  | DispatchError.cancellation => ([], Except.ok ())
  | DispatchError.configuration m =>
    ([Event.linterStop, Event.logError (DispatchError.configuration m)], Except.ok ())
  | DispatchError.updatePrevented => ([Event.linterStop], Except.ok ())
  | DispatchError.phpcs m =>
    ([Event.linterStop, Event.logError (DispatchError.phpcs m)], Except.ok ())
  | DispatchError.unknown m =>
    ([Event.linterStop], Except.error (DispatchError.unknown m))

/-- `DiagnosticUpdater.update`: return immediately when
`createCancellationToken` yields no token; otherwise start the linter
status, run the chain, and finish through the success or catch handler. -/
def update (env : UpdateEnv) (document : TextDocument)
    (lintAction : LintAction) : List Event × Except DispatchError Unit :=
  match env.token with
  | none => ([], Except.ok ())
  | some _ =>
    let chain := updateChain env document lintAction
    match chain.2 with
    | Except.ok report? =>
      (Event.linterStart :: chain.1 ++ updateOnResponse document report?, Except.ok ())
    | Except.error e =>
      let caught := updateCatch e
      (Event.linterStart :: chain.1 ++ caught.1, caught.2)

/-- Whether an `update` run reaches the success handler: a token was
obtained, the configuration resolved, the document is neither excluded nor
gated by the lint-action setting, and the pool and worker succeeded. -/
def updateReachesSuccess (env : UpdateEnv) (document : TextDocument)
    (lintAction : LintAction) : Bool :=
  env.token.isSome &&
    match env.configResult with
    | Except.error _ => false
    | Except.ok config =>
      !(config.exclude.any fun pattern => pattern.test document.uri.fsPath) &&
      !(preventedByLintAction lintAction config.lintAction) &&
        match env.poolResult with
        | Except.error _ => false
        | Except.ok _ =>
          match env.executeResult with
          | Except.error _ => false
          | Except.ok _ => true

end DiagnosticUpdater

namespace CodeActionEditResolver

/-- The serialization key of a resolution:
`['resolve', fileName, code, line, character].join(':')`. -/
def resolveKey (document : TextDocument) (diagnostic : Diagnostic) : String :=
  String.intercalate ":"
    ["resolve", document.fileName, diagnostic.code,
     toString diagnostic.range.start.line,
     toString diagnostic.range.start.character]

/-- The code-action request built inside the worker step (from the second
`configuration.get`). -/
def codeActionRequest (env : ResolveEnv) (document : TextDocument)
    (diagnostic : Diagnostic) (config : PhpcsConfiguration) : CodeActionRequest :=
  { workingDirectory := env.workspaceUri.fsPath
    documentPath := document.uri.fsPath
    documentContent := document.text
    options := { executable := config.executable, standard := config.standard }
    data :=
      { code := diagnostic.code
        line := diagnostic.range.start.line
        character := diagnostic.range.start.character } }

/-- The promise chain of `resolve` from the first `configuration.get` up
to and including `worker.execute`. -/
def resolveChain (env : ResolveEnv) (document : TextDocument)
    (diagnostic : Diagnostic) :
    List Event × Except DispatchError (Option CodeActionReport) :=
  match env.configResult with
  | Except.error e => ([Event.getConfiguration], Except.error e)
  | Except.ok _ =>
    match env.poolResult with
    | Except.error e =>
      ([Event.getConfiguration, Event.waitForAvailable (resolveKey document diagnostic)],
        Except.error e)
    | Except.ok _ =>
      match env.configResult2 with
      | Except.error e =>
        ([Event.getConfiguration, Event.waitForAvailable (resolveKey document diagnostic),
          Event.getConfiguration], Except.error e)
      | Except.ok config =>
        ([Event.getConfiguration, Event.waitForAvailable (resolveKey document diagnostic),
          Event.getConfiguration,
          Event.executeCodeAction (codeActionRequest env document diagnostic config)],
          env.executeResult)

/-- The success handler of `resolve`: delete the cancellation token, then
set the code action's edit from the report's edits when a report is
present and leave the action untouched when it is absent. -/
def resolveOnResponse (codeAction : CodeAction) (document : TextDocument)
    (report? : Option CodeActionReport) : CodeAction :=
  match report? with
  | none => codeAction
  | some report =>
    { codeAction with edit := some { entries := [(document.uri, report.edits)] } }

/-- The catch handler of `resolve`: cancellation recovers silently,
configuration and PHPCS errors are logged and recovered from, anything
else is re-thrown. -/
def resolveCatch (codeAction : CodeAction) (e : DispatchError) :
    List Event × Except DispatchError CodeAction :=
  match e with
  | DispatchError.cancellation => ([], Except.ok codeAction)
  | DispatchError.configuration m =>
    ([Event.logError (DispatchError.configuration m)], Except.ok codeAction)
  | DispatchError.phpcs m =>
    ([Event.logError (DispatchError.phpcs m)], Except.ok codeAction)
  | DispatchError.updatePrevented => ([], Except.error DispatchError.updatePrevented)
  | DispatchError.unknown m => ([], Except.error (DispatchError.unknown m))

/-- `CodeActionEditResolver.resolve`: resolve immediately with the
unmodified code action when it has no document, no diagnostics list, or
not exactly one diagnostic, or when no cancellation token is obtained;
otherwise run the chain and finish through the success or catch handler. -/
def resolve (env : ResolveEnv) (codeAction : CodeAction) :
    List Event × Except DispatchError CodeAction :=
  match codeAction.document, codeAction.diagnostics with
  | some document, some [diagnostic] =>
    (match env.token with
     | none => ([], Except.ok codeAction)
     | some _ =>
       let chain := resolveChain env document diagnostic
       match chain.2 with
       | Except.ok report? =>
         (chain.1 ++ [Event.deleteCancellationToken],
           Except.ok (resolveOnResponse codeAction document report?))
       | Except.error e =>
         let caught := resolveCatch codeAction e
         (chain.1 ++ caught.1, caught.2))
  | _, _ => ([], Except.ok codeAction)

/-- Whether a `resolve` run reaches the success handler. -/
def resolveReachesSuccess (env : ResolveEnv) (codeAction : CodeAction) : Bool :=
  (match codeAction.document, codeAction.diagnostics with
   | some _, some [_] => true
   | _, _ => false) &&
  env.token.isSome &&
    match env.configResult with
    | Except.error _ => false
    | Except.ok _ =>
      match env.poolResult with
      | Except.error _ => false
      | Except.ok _ =>
        match env.configResult2 with
        | Except.error _ => false
        | Except.ok _ =>
          match env.executeResult with
          | Except.error _ => false
          | Except.ok _ => true

end CodeActionEditResolver

open DiagnosticUpdater CodeActionEditResolver

/-! ## Helper lemmas -/

/-- The chain of `update` never logs: logging happens only in the catch
handler. -/
lemma updateChain_no_logError (env : UpdateEnv) (document : TextDocument)
    (lintAction : LintAction) (e : DispatchError) :
    Event.logError e ∉ (updateChain env document lintAction).1 := by
  obtain ⟨tok, cfg, wuri, pool, exec⟩ := env
  rcases cfg with f | config
  · simp [updateChain]
  · rcases pool with f | u <;>
      · simp only [updateChain, clearDocumentEvents]
        split_ifs <;> simp

/-- The chain of `resolve` never logs. -/
lemma resolveChain_no_logError (env : ResolveEnv) (document : TextDocument)
    (diagnostic : Diagnostic) (e : DispatchError) :
    Event.logError e ∉ (resolveChain env document diagnostic).1 := by
  obtain ⟨tok, cfg, wuri, pool, cfg2, exec⟩ := env
  rcases cfg with f | c1 <;> rcases pool with f | u <;> rcases cfg2 with f | c2 <;>
    simp [resolveChain]

/-- Every pool request the `update` chain makes uses the key
`"diagnostic:" ++ fileName`. -/
lemma updateChain_wait_key {env : UpdateEnv} {document : TextDocument}
    {lintAction : LintAction} {k : String}
    (h : Event.waitForAvailable k ∈ (updateChain env document lintAction).1) :
    k = "diagnostic:" ++ document.fileName := by
  obtain ⟨tok, cfg, wuri, pool, exec⟩ := env
  rcases cfg with f | config
  · simp [updateChain] at h
  · rcases pool with f | u <;>
      · simp only [updateChain, clearDocumentEvents] at h
        split_ifs at h <;> simp_all

/-- Every pool request the `resolve` chain makes uses the resolution key. -/
lemma resolveChain_wait_key {env : ResolveEnv} {document : TextDocument}
    {diagnostic : Diagnostic} {k : String}
    (h : Event.waitForAvailable k ∈ (resolveChain env document diagnostic).1) :
    k = resolveKey document diagnostic := by
  obtain ⟨tok, cfg, wuri, pool, cfg2, exec⟩ := env
  rcases cfg with f | c1 <;> rcases pool with f | u <;> rcases cfg2 with f | c2 <;>
    simp_all [resolveChain]

/-! ## Concrete sample inputs used by witnesses and counterexamples -/

/-- A sample document. -/
def sampleDocument : TextDocument :=
  { uri := { fsPath := "/project/app.php" }, fileName := "app.php", text := "<?php echo 1;" }

/-- A configuration whose exclude patterns match every path. -/
def excludeAllConfig : PhpcsConfiguration :=
  { exclude := [{ test := fun _ => true }]
    lintAction := LintAction.change
    executable := "phpcs"
    standard := "PSR12" }

/-- A configuration with no exclude patterns, linting on change. -/
def openConfig : PhpcsConfiguration :=
  { exclude := []
    lintAction := LintAction.change
    executable := "phpcs"
    standard := "PSR12" }

/-- An update environment whose configuration excludes the document. -/
def excludedEnv : UpdateEnv :=
  { token := some ()
    configResult := Except.ok excludeAllConfig
    workspaceUri := { fsPath := "/project" }
    poolResult := Except.ok ()
    executeResult := Except.ok none }

/-- An update environment that reaches the worker and gets no report. -/
def openEnv : UpdateEnv :=
  { token := some ()
    configResult := Except.ok openConfig
    workspaceUri := { fsPath := "/project" }
    poolResult := Except.ok ()
    executeResult := Except.ok none }

/-- An update environment with no cancellation token. -/
def noTokenEnv : UpdateEnv :=
  { token := none
    configResult := Except.ok openConfig
    workspaceUri := { fsPath := "/project" }
    poolResult := Except.ok ()
    executeResult := Except.ok none }

/-- A sample diagnostic. -/
def sampleDiagnostic : Diagnostic :=
  { code := "Laravel.Security.EchoSniff", range := { start := { line := 4, character := 7 } } }

/-- A resolvable code action for `sampleDocument` and `sampleDiagnostic`. -/
def sampleCodeAction : CodeAction :=
  { title := "Fix this"
    kind := CodeActionKind.quickFix
    diagnostics := some [sampleDiagnostic]
    command := none
    edit := none
    document := some sampleDocument }

/-- A resolve environment that reaches the worker. -/
def openResolveEnv : ResolveEnv :=
  { token := some ()
    configResult := Except.ok openConfig
    workspaceUri := { fsPath := "/project" }
    poolResult := Except.ok ()
    configResult2 := Except.ok openConfig
    executeResult := Except.ok none }

/-- A resolve environment with no cancellation token. -/
def noTokenResolveEnv : ResolveEnv :=
  { token := none
    configResult := Except.ok openConfig
    workspaceUri := { fsPath := "/project" }
    poolResult := Except.ok ()
    configResult2 := Except.ok openConfig
    executeResult := Except.ok none }

/-! ## Claims -/

/-- C7: when `createCancellationToken` returns null, `update` returns at
once with an empty effect trace (no linter-status start, no configuration
fetch, no worker request), and `resolve` resolves at once with the
unmodified code action. -/
theorem null_token_fail_fast (env : UpdateEnv) (document : TextDocument)
    (lintAction : LintAction) (renv : ResolveEnv) (codeAction : CodeAction)
    (hu : env.token = none) (hr : renv.token = none) :
    update env document lintAction = ([], Except.ok ()) ∧
    resolve renv codeAction = ([], Except.ok codeAction) := by
  constructor
  · unfold update
    rw [hu]
  · obtain ⟨t, k, diags, cmd, ed, doc⟩ := codeAction
    rcases doc with _ | document
    · rfl
    · rcases diags with _ | ds
      · rfl
      · rcases ds with _ | ⟨d, _ | ⟨d2, rest⟩⟩
        · rfl
        · simp [resolve, hr]
        · rfl

/-- C7 witness: the null-token fast path at concrete inputs. -/
theorem null_token_fail_fast_witness :
    update noTokenEnv sampleDocument LintAction.change = ([], Except.ok ()) ∧
    resolve noTokenResolveEnv sampleCodeAction = ([], Except.ok sampleCodeAction) :=
  null_token_fail_fast noTokenEnv sampleDocument LintAction.change
    noTokenResolveEnv sampleCodeAction rfl rfl

/-- C9: a code action with no document, no diagnostics list, or a
diagnostics list whose length is not exactly one is resolved immediately,
unmodified, with no effects performed and no dependence on any
collaborator (the environment is universally quantified). -/
theorem invalid_code_action_identity (env : ResolveEnv) (codeAction : CodeAction)
    (h : codeAction.document = none ∨ codeAction.diagnostics = none ∨
      ∀ ds, codeAction.diagnostics = some ds → ds.length ≠ 1) :
    resolve env codeAction = ([], Except.ok codeAction) := by
  obtain ⟨t, k, diags, cmd, ed, doc⟩ := codeAction
  rcases doc with _ | document
  · rfl
  · rcases diags with _ | ds
    · rfl
    · rcases ds with _ | ⟨d, _ | ⟨d2, rest⟩⟩
      · rfl
      · rcases h with h | h | h
        · exact absurd h (by simp)
        · exact absurd h (by simp)
        · exact (h [d] rfl rfl).elim
      · rfl

/-- C9 witness: a code action with two diagnostics is returned as-is. -/
theorem invalid_code_action_identity_witness :
    resolve openResolveEnv
      { sampleCodeAction with diagnostics := some [sampleDiagnostic, sampleDiagnostic] } =
      ([], Except.ok
        { sampleCodeAction with diagnostics := some [sampleDiagnostic, sampleDiagnostic] }) :=
  invalid_code_action_identity openResolveEnv
    { sampleCodeAction with diagnostics := some [sampleDiagnostic, sampleDiagnostic] }
    (Or.inr (Or.inr (by intro ds hds; simp at hds; subst hds; simp)))

/-- C10: when the document's path matches an exclude pattern, `update`
deletes the stored diagnostics and code actions for the document before
aborting; the complete effect trace is the status start, the configuration
fetch, both deletions, and the status stop. -/
theorem excluded_document_cleared (env : UpdateEnv) (document : TextDocument)
    (lintAction : LintAction) (config : PhpcsConfiguration)
    (htok : env.token = some ())
    (hcfg : env.configResult = Except.ok config)
    (hexcl : (config.exclude.any fun pattern => pattern.test document.uri.fsPath) = true) :
    update env document lintAction =
      ([Event.linterStart, Event.getConfiguration, Event.diagnosticsDelete,
        Event.codeActionsDelete, Event.linterStop], Except.ok ()) := by
  unfold update updateChain
  rw [htok, hcfg]
  simp [hexcl, clearDocumentEvents, updateCatch]

/-- C10 witness: the excluded-document clearing at concrete inputs. -/
theorem excluded_document_cleared_witness :
    update excludedEnv sampleDocument LintAction.change =
      ([Event.linterStart, Event.getConfiguration, Event.diagnosticsDelete,
        Event.codeActionsDelete, Event.linterStop], Except.ok ()) :=
  excluded_document_cleared excludedEnv sampleDocument LintAction.change
    excludeAllConfig rfl rfl rfl

/-- C4: when the document's path matches an exclude pattern, `update`
aborts as an expected short-circuit: the promise resolves, nothing is
logged, and no pool request (hence no worker acquisition) ever happens. -/
theorem excluded_no_worker (env : UpdateEnv) (document : TextDocument)
    (lintAction : LintAction) (config : PhpcsConfiguration)
    (htok : env.token = some ())
    (hcfg : env.configResult = Except.ok config)
    (hexcl : (config.exclude.any fun pattern => pattern.test document.uri.fsPath) = true) :
    (update env document lintAction).2 = Except.ok () ∧
    (∀ key, Event.waitForAvailable key ∉ (update env document lintAction).1) ∧
    (∀ e, Event.logError e ∉ (update env document lintAction).1) := by
  rw [excluded_document_cleared env document lintAction config htok hcfg hexcl]
  refine ⟨rfl, ?_, ?_⟩ <;> intro x <;> simp

/-- C4 witness: the excluded short-circuit at concrete inputs. -/
theorem excluded_no_worker_witness :
    (update excludedEnv sampleDocument LintAction.change).2 = Except.ok () ∧
    Event.waitForAvailable ("diagnostic:" ++ "app.php")
      ∉ (update excludedEnv sampleDocument LintAction.change).1 ∧
    Event.logError DispatchError.updatePrevented
      ∉ (update excludedEnv sampleDocument LintAction.change).1 := by
  obtain ⟨h1, h2, h3⟩ :=
    excluded_no_worker excludedEnv sampleDocument LintAction.change excludeAllConfig rfl rfl rfl
  exact ⟨h1, h2 _, h3 _⟩

/-- The success handler of `update` makes no pool request. -/
lemma updateOnResponse_no_wait (document : TextDocument)
    (report? : Option DiagnosticReport) (k : String) :
    Event.waitForAvailable k ∉ updateOnResponse document report? := by
  cases report? <;> simp [updateOnResponse, clearDocumentEvents]

/-- The catch handler of `update` makes no pool request. -/
lemma updateCatch_no_wait (e : DispatchError) (k : String) :
    Event.waitForAvailable k ∉ (updateCatch e).1 := by
  cases e <;> simp [updateCatch]

/-- The catch handler of `resolve` makes no pool request. -/
lemma resolveCatch_no_wait (codeAction : CodeAction) (e : DispatchError) (k : String) :
    Event.waitForAvailable k ∉ (resolveCatch codeAction e).1 := by
  cases e <;> simp [resolveCatch]

/-- With a token, the trace of `update` is the status start, the chain's
trace, and the trace of whichever handler the chain's outcome selects. -/
lemma update_trace_shape (env : UpdateEnv) (document : TextDocument)
    (lintAction : LintAction) (htok : env.token = some ()) :
    (update env document lintAction).1 =
      Event.linterStart :: (updateChain env document lintAction).1 ++
        (match (updateChain env document lintAction).2 with
         | Except.ok report? => updateOnResponse document report?
         | Except.error e => (updateCatch e).1) := by
  simp only [update, htok]
  rcases hc : (updateChain env document lintAction).2 with e | report? <;>
    simp only [hc]

/-- With a token and a valid code action, the trace of `resolve` is the
chain's trace followed by the selected handler's trace. -/
lemma resolve_trace_shape (env : ResolveEnv) (codeAction : CodeAction)
    (document : TextDocument) (diagnostic : Diagnostic)
    (hdoc : codeAction.document = some document)
    (hdiag : codeAction.diagnostics = some [diagnostic])
    (htok : env.token = some ()) :
    (resolve env codeAction).1 =
      (resolveChain env document diagnostic).1 ++
        (match (resolveChain env document diagnostic).2 with
         | Except.ok _ => [Event.deleteCancellationToken]
         | Except.error e => (resolveCatch codeAction e).1) := by
  simp only [resolve, hdoc, hdiag, htok]
  rcases hc : (resolveChain env document diagnostic).2 with e | report? <;>
    simp only [hc]

/-- Every pool request in a full `update` run uses the diagnostic key. -/
lemma update_wait_key {env : UpdateEnv} {document : TextDocument}
    {lintAction : LintAction} {k : String}
    (h : Event.waitForAvailable k ∈ (update env document lintAction).1) :
    k = "diagnostic:" ++ document.fileName := by
  rcases htok : env.token with _ | u
  · unfold update at h
    rw [htok] at h
    simp at h
  · rw [update_trace_shape env document lintAction htok] at h
    simp only [List.cons_append, List.mem_cons, List.mem_append] at h
    rcases h with h | h | h
    · exact absurd h (by simp)
    · exact updateChain_wait_key h
    · rcases hc : (updateChain env document lintAction).2 with e | report? <;>
        rw [hc] at h
      · exact absurd h (updateCatch_no_wait e k)
      · exact absurd h (updateOnResponse_no_wait document report? k)

/-- Every pool request in a full `resolve` run uses the resolution key. -/
lemma resolve_wait_key {env : ResolveEnv} {codeAction : CodeAction}
    {document : TextDocument} {diagnostic : Diagnostic} {k : String}
    (hdoc : codeAction.document = some document)
    (hdiag : codeAction.diagnostics = some [diagnostic])
    (h : Event.waitForAvailable k ∈ (resolve env codeAction).1) :
    k = resolveKey document diagnostic := by
  rcases htok : env.token with _ | u
  · unfold resolve at h
    rw [hdoc, hdiag, htok] at h
    simp at h
  · rw [resolve_trace_shape env codeAction document diagnostic hdoc hdiag htok] at h
    simp only [List.mem_append] at h
    rcases h with h | h
    · exact resolveChain_wait_key h
    · rcases hc : (resolveChain env document diagnostic).2 with e | report? <;>
        rw [hc] at h
      · exact absurd h (resolveCatch_no_wait codeAction e k)
      · simp at h

/-- When the `update` chain passes the exclusion and lint-action guards,
it requests the pool with the diagnostic key. -/
lemma updateChain_wait_mem (env : UpdateEnv) (document : TextDocument)
    (lintAction : LintAction) (config : PhpcsConfiguration)
    (hcfg : env.configResult = Except.ok config)
    (hexcl : (config.exclude.any fun pattern => pattern.test document.uri.fsPath) = false)
    (hact : preventedByLintAction lintAction config.lintAction = false) :
    Event.waitForAvailable ("diagnostic:" ++ document.fileName)
      ∈ (updateChain env document lintAction).1 := by
  unfold updateChain
  rw [hcfg]
  rcases env.poolResult with e | u <;> simp [hexcl, hact]

/-- When the first configuration fetch of `resolve` succeeds, the chain
requests the pool with the resolution key. -/
lemma resolveChain_wait_mem (env : ResolveEnv) (document : TextDocument)
    (diagnostic : Diagnostic) (config : PhpcsConfiguration)
    (hcfg : env.configResult = Except.ok config) :
    Event.waitForAvailable (resolveKey document diagnostic)
      ∈ (resolveChain env document diagnostic).1 := by
  unfold resolveChain
  rw [hcfg]
  rcases env.poolResult with e | u <;> rcases env.configResult2 with e2 | c2 <;> simp

/-- C5: `update` triggered by `Change` under a `Save` configuration, or by
`Save` under a `Change` configuration, aborts cleanly (trace: status
start, configuration fetch, status stop; the promise resolves) before any
pool request; every other trigger/configuration combination reaches the
pool request. -/
theorem lint_action_gating (env : UpdateEnv) (document : TextDocument)
    (config : PhpcsConfiguration)
    (htok : env.token = some ())
    (hcfg : env.configResult = Except.ok config)
    (hexcl : (config.exclude.any fun pattern => pattern.test document.uri.fsPath) = false) :
    (∀ lintAction,
      ((lintAction = LintAction.change ∧ config.lintAction = LintAction.save) ∨
       (lintAction = LintAction.save ∧ config.lintAction = LintAction.change)) →
      update env document lintAction =
        ([Event.linterStart, Event.getConfiguration, Event.linterStop], Except.ok ())) ∧
    (∀ lintAction,
      ¬((lintAction = LintAction.change ∧ config.lintAction = LintAction.save) ∨
        (lintAction = LintAction.save ∧ config.lintAction = LintAction.change)) →
      Event.waitForAvailable ("diagnostic:" ++ document.fileName)
        ∈ (update env document lintAction).1) := by
  have hprev : ∀ lintAction, preventedByLintAction lintAction config.lintAction = true ↔
      ((lintAction = LintAction.change ∧ config.lintAction = LintAction.save) ∨
       (lintAction = LintAction.save ∧ config.lintAction = LintAction.change)) := by
    intro la
    cases la <;> rcases hc : config.lintAction <;> simp [preventedByLintAction, hc]
  constructor
  · intro la hla
    unfold update updateChain
    rw [htok, hcfg]
    simp [hexcl, (hprev la).mpr hla, updateCatch]
  · intro la hla
    have hp : preventedByLintAction la config.lintAction = false := by
      rcases hpe : preventedByLintAction la config.lintAction
      · rfl
      · exact absurd ((hprev la).mp hpe) hla
    rw [update_trace_shape env document la htok]
    simp only [List.cons_append, List.mem_cons, List.mem_append]
    exact Or.inr (Or.inl (updateChain_wait_mem env document la config hcfg hexcl hp))

/-- C5 witness: trigger `Save` under a `Change` configuration aborts; trigger
`Change` under a `Change` configuration reaches the pool request. -/
theorem lint_action_gating_witness :
    update openEnv sampleDocument LintAction.save =
      ([Event.linterStart, Event.getConfiguration, Event.linterStop], Except.ok ()) ∧
    Event.waitForAvailable ("diagnostic:" ++ sampleDocument.fileName)
      ∈ (update openEnv sampleDocument LintAction.change).1 := by
  obtain ⟨h1, h2⟩ := lint_action_gating openEnv sampleDocument openConfig rfl rfl rfl
  exact ⟨h1 LintAction.save (Or.inr ⟨rfl, rfl⟩), h2 LintAction.change (by simp [openConfig])⟩

/-- C6: every pool request of `update` carries the key `"diagnostic:"`
followed by the document's file name; every pool request of `resolve`
carries `"resolve"`, the file name, the diagnostic's code, its start line
and its start character joined by `":"`; and any two resolutions of the
same diagnostic on the same document carry the same key. -/
theorem serialization_keys
    (env : UpdateEnv) (document : TextDocument) (lintAction : LintAction)
    (config : PhpcsConfiguration)
    (renv renv2 : ResolveEnv) (codeAction codeAction2 : CodeAction)
    (rdoc : TextDocument) (diagnostic : Diagnostic) (rconfig : PhpcsConfiguration)
    (htok : env.token = some ())
    (hcfg : env.configResult = Except.ok config)
    (hexcl : (config.exclude.any fun pattern => pattern.test document.uri.fsPath) = false)
    (hact : preventedByLintAction lintAction config.lintAction = false)
    (hdoc : codeAction.document = some rdoc)
    (hdiag : codeAction.diagnostics = some [diagnostic])
    (hrtok : renv.token = some ())
    (hrcfg : renv.configResult = Except.ok rconfig)
    (hdoc2 : codeAction2.document = some rdoc)
    (hdiag2 : codeAction2.diagnostics = some [diagnostic]) :
    (Event.waitForAvailable ("diagnostic:" ++ document.fileName)
        ∈ (update env document lintAction).1 ∧
     ∀ k, Event.waitForAvailable k ∈ (update env document lintAction).1 →
       k = "diagnostic:" ++ document.fileName) ∧
    (Event.waitForAvailable
        (String.intercalate ":" ["resolve", rdoc.fileName, diagnostic.code,
          toString diagnostic.range.start.line, toString diagnostic.range.start.character])
        ∈ (resolve renv codeAction).1 ∧
     ∀ k, Event.waitForAvailable k ∈ (resolve renv codeAction).1 →
       k = String.intercalate ":" ["resolve", rdoc.fileName, diagnostic.code,
         toString diagnostic.range.start.line, toString diagnostic.range.start.character]) ∧
    (∀ k1 k2, Event.waitForAvailable k1 ∈ (resolve renv codeAction).1 →
      Event.waitForAvailable k2 ∈ (resolve renv2 codeAction2).1 → k1 = k2) := by
  refine ⟨⟨?_, ?_⟩, ⟨?_, ?_⟩, ?_⟩
  · rw [update_trace_shape env document lintAction htok]
    simp only [List.cons_append, List.mem_cons, List.mem_append]
    exact Or.inr (Or.inl (updateChain_wait_mem env document lintAction config hcfg hexcl hact))
  · intro k hk
    exact update_wait_key hk
  · rw [resolve_trace_shape renv codeAction rdoc diagnostic hdoc hdiag hrtok]
    simp only [List.mem_append]
    exact Or.inl (resolveChain_wait_mem renv rdoc diagnostic rconfig hrcfg)
  · intro k hk
    exact resolve_wait_key hdoc hdiag hk
  · intro k1 k2 h1 h2
    rw [resolve_wait_key hdoc hdiag h1, resolve_wait_key hdoc2 hdiag2 h2]

/-- C6 witness: both keys at concrete inputs. -/
theorem serialization_keys_witness :
    Event.waitForAvailable ("diagnostic:" ++ sampleDocument.fileName)
      ∈ (update openEnv sampleDocument LintAction.change).1 ∧
    Event.waitForAvailable
      (String.intercalate ":" ["resolve", sampleDocument.fileName, sampleDiagnostic.code,
        toString sampleDiagnostic.range.start.line,
        toString sampleDiagnostic.range.start.character])
      ∈ (resolve openResolveEnv sampleCodeAction).1 := by
  obtain ⟨⟨h1, _⟩, ⟨h2, _⟩, _⟩ :=
    serialization_keys openEnv sampleDocument LintAction.change openConfig
      openResolveEnv openResolveEnv sampleCodeAction sampleCodeAction
      sampleDocument sampleDiagnostic openConfig
      rfl rfl rfl rfl rfl rfl rfl rfl rfl rfl
  exact ⟨h1, h2⟩

/-- The `update` chain past every guard: its trace is the configuration
fetch, the pool request, and the worker request; its outcome is the
worker's. -/
lemma updateChain_ok (env : UpdateEnv) (document : TextDocument)
    (lintAction : LintAction) (config : PhpcsConfiguration)
    (hcfg : env.configResult = Except.ok config)
    (hexcl : (config.exclude.any fun pattern => pattern.test document.uri.fsPath) = false)
    (hact : preventedByLintAction lintAction config.lintAction = false)
    (hpool : env.poolResult = Except.ok ()) :
    updateChain env document lintAction =
      ([Event.getConfiguration,
        Event.waitForAvailable ("diagnostic:" ++ document.fileName),
        Event.executeDiagnostic (diagnosticRequest env document config)],
        env.executeResult) := by
  unfold updateChain
  rw [hcfg, hpool]
  simp [hexcl, hact]

/-- The `resolve` chain when both configuration fetches and the pool
request succeed. -/
lemma resolveChain_ok (env : ResolveEnv) (document : TextDocument)
    (diagnostic : Diagnostic) (config1 config2 : PhpcsConfiguration)
    (hcfg : env.configResult = Except.ok config1)
    (hpool : env.poolResult = Except.ok ())
    (hcfg2 : env.configResult2 = Except.ok config2) :
    resolveChain env document diagnostic =
      ([Event.getConfiguration,
        Event.waitForAvailable (resolveKey document diagnostic),
        Event.getConfiguration,
        Event.executeCodeAction (codeActionRequest env document diagnostic config2)],
        env.executeResult) := by
  unfold resolveChain
  rw [hcfg, hpool, hcfg2]

/-- With a token, the outcome of `update` is the one selected by the
chain's result. -/
lemma update_outcome_shape (env : UpdateEnv) (document : TextDocument)
    (lintAction : LintAction) (htok : env.token = some ()) :
    (update env document lintAction).2 =
      (match (updateChain env document lintAction).2 with
       | Except.ok _ => Except.ok ()
       | Except.error e => (updateCatch e).2) := by
  simp only [update, htok]
  rcases hc : (updateChain env document lintAction).2 with e | report? <;>
    simp only [hc]

/-- With a token and a valid code action, the outcome of `resolve` is the
one selected by the chain's result. -/
lemma resolve_outcome_shape (env : ResolveEnv) (codeAction : CodeAction)
    (document : TextDocument) (diagnostic : Diagnostic)
    (hdoc : codeAction.document = some document)
    (hdiag : codeAction.diagnostics = some [diagnostic])
    (htok : env.token = some ()) :
    (resolve env codeAction).2 =
      (match (resolveChain env document diagnostic).2 with
       | Except.ok report? => Except.ok (resolveOnResponse codeAction document report?)
       | Except.error e => (resolveCatch codeAction e).2) := by
  simp only [resolve, hdoc, hdiag, htok]
  rcases hc : (resolveChain env document diagnostic).2 with e | report? <;>
    simp only [hc]

/-- C1: when the worker request of `update` succeeds, an absent report
deletes the document's entries from both collections, and a present
report replaces the document's diagnostics by the report's and its code
actions by the report's plus one ignore-line quick fix per diagnostic;
when `resolve` succeeds, the code action's edit is set from the report's
edits exactly when a report is present and the action is returned
unchanged (its edit still unset) when the report is absent. -/
theorem report_mapping
    (env : UpdateEnv) (document : TextDocument) (lintAction : LintAction)
    (config : PhpcsConfiguration) (report? : Option DiagnosticReport)
    (renv : ResolveEnv) (codeAction : CodeAction) (rdoc : TextDocument)
    (diagnostic : Diagnostic) (rconfig1 rconfig2 : PhpcsConfiguration)
    (rreport? : Option CodeActionReport)
    (htok : env.token = some ())
    (hcfg : env.configResult = Except.ok config)
    (hexcl : (config.exclude.any fun pattern => pattern.test document.uri.fsPath) = false)
    (hact : preventedByLintAction lintAction config.lintAction = false)
    (hpool : env.poolResult = Except.ok ())
    (hexec : env.executeResult = Except.ok report?)
    (hdoc : codeAction.document = some rdoc)
    (hdiag : codeAction.diagnostics = some [diagnostic])
    (hrtok : renv.token = some ())
    (hrcfg : renv.configResult = Except.ok rconfig1)
    (hrpool : renv.poolResult = Except.ok ())
    (hrcfg2 : renv.configResult2 = Except.ok rconfig2)
    (hrexec : renv.executeResult = Except.ok rreport?) :
    ((report? = none →
        update env document lintAction =
          ([Event.linterStart, Event.getConfiguration,
            Event.waitForAvailable ("diagnostic:" ++ document.fileName),
            Event.executeDiagnostic (diagnosticRequest env document config),
            Event.deleteCancellationToken, Event.linterStop,
            Event.diagnosticsDelete, Event.codeActionsDelete], Except.ok ())) ∧
     (∀ report, report? = some report →
        update env document lintAction =
          ([Event.linterStart, Event.getConfiguration,
            Event.waitForAvailable ("diagnostic:" ++ document.fileName),
            Event.executeDiagnostic (diagnosticRequest env document config),
            Event.deleteCancellationToken, Event.linterStop,
            Event.diagnosticsSet report.diagnostics,
            Event.codeActionsSet (report.codeActions ++
              buildDiagnosticCodeActions document report.diagnostics)], Except.ok ()))) ∧
    ((rreport? = none → (resolve renv codeAction).2 = Except.ok codeAction) ∧
     (∀ report, rreport? = some report →
        (resolve renv codeAction).2 = Except.ok
          { codeAction with
            edit := some { entries := [(rdoc.uri, report.edits)] } })) := by
  have hchain := updateChain_ok env document lintAction config hcfg hexcl hact hpool
  have hrchain := resolveChain_ok renv rdoc diagnostic rconfig1 rconfig2 hrcfg hrpool hrcfg2
  refine ⟨⟨?_, ?_⟩, ?_, ?_⟩
  · intro hnone
    subst hnone
    simp only [update, htok, hchain, hexec, updateOnResponse, clearDocumentEvents]
    rfl
  · intro report hsome
    subst hsome
    simp only [update, htok, hchain, hexec, updateOnResponse]
    rfl
  · intro hnone
    subst hnone
    rw [resolve_outcome_shape renv codeAction rdoc diagnostic hdoc hdiag hrtok]
    simp only [hrchain, hrexec, resolveOnResponse]
  · intro report hsome
    subst hsome
    rw [resolve_outcome_shape renv codeAction rdoc diagnostic hdoc hdiag hrtok]
    simp only [hrchain, hrexec, resolveOnResponse]

/-- A diagnostic report with one finding, used by the C1 witness. -/
def sampleReport : DiagnosticReport :=
  { diagnostics := [sampleDiagnostic], codeActions := [] }

/-- An update environment whose worker returns `sampleReport`. -/
def reportEnv : UpdateEnv :=
  { token := some ()
    configResult := Except.ok openConfig
    workspaceUri := { fsPath := "/project" }
    poolResult := Except.ok ()
    executeResult := Except.ok (some sampleReport) }

/-- A resolve environment whose worker returns one edit. -/
def editResolveEnv : ResolveEnv :=
  { token := some ()
    configResult := Except.ok openConfig
    workspaceUri := { fsPath := "/project" }
    poolResult := Except.ok ()
    configResult2 := Except.ok openConfig
    executeResult := Except.ok (some { edits := [{ newText := "fixed" }] }) }

/-- C1 witness: a present report replaces the collections and sets the
resolved action's edit, at concrete inputs. -/
theorem report_mapping_witness :
    update reportEnv sampleDocument LintAction.change =
      ([Event.linterStart, Event.getConfiguration,
        Event.waitForAvailable ("diagnostic:" ++ sampleDocument.fileName),
        Event.executeDiagnostic (diagnosticRequest reportEnv sampleDocument openConfig),
        Event.deleteCancellationToken, Event.linterStop,
        Event.diagnosticsSet sampleReport.diagnostics,
        Event.codeActionsSet (sampleReport.codeActions ++
          buildDiagnosticCodeActions sampleDocument sampleReport.diagnostics)],
        Except.ok ()) ∧
    (resolve editResolveEnv sampleCodeAction).2 = Except.ok
      { sampleCodeAction with
        edit := some { entries :=
          [(sampleDocument.uri, [{ newText := "fixed" }])] } } := by
  obtain ⟨⟨_, hu⟩, _, hr⟩ :=
    report_mapping reportEnv sampleDocument LintAction.change openConfig
      (some sampleReport) editResolveEnv sampleCodeAction sampleDocument
      sampleDiagnostic openConfig openConfig
      (some { edits := [{ newText := "fixed" }] })
      rfl rfl rfl rfl rfl rfl rfl rfl rfl rfl rfl rfl rfl
  exact ⟨hu sampleReport rfl, hr { edits := [{ newText := "fixed" }] } rfl⟩

/-- C3: an error reaching a dispatcher's catch handler is swallowed
silently when it is a cancellation (the run resolves and nothing is ever
logged), and is passed to `logger.error` exactly once when it is a
configuration error or a PHPCS error (and the run still resolves --
`update` without rethrowing, `resolve` with the original code action). -/
theorem catch_error_classification
    (env : UpdateEnv) (document : TextDocument) (lintAction : LintAction)
    (e : DispatchError)
    (renv : ResolveEnv) (codeAction : CodeAction) (rdoc : TextDocument)
    (diagnostic : Diagnostic) (f : DispatchError)
    (htok : env.token = some ())
    (herr : (updateChain env document lintAction).2 = Except.error e)
    (hdoc : codeAction.document = some rdoc)
    (hdiag : codeAction.diagnostics = some [diagnostic])
    (hrtok : renv.token = some ())
    (hrerr : (resolveChain renv rdoc diagnostic).2 = Except.error f) :
    ((e = DispatchError.cancellation →
        (update env document lintAction).2 = Except.ok () ∧
        ∀ x, Event.logError x ∉ (update env document lintAction).1) ∧
     (∀ m, e = DispatchError.configuration m →
        (update env document lintAction).2 = Except.ok () ∧
        (update env document lintAction).1.count (Event.logError e) = 1) ∧
     (∀ m, e = DispatchError.phpcs m →
        (update env document lintAction).2 = Except.ok () ∧
        (update env document lintAction).1.count (Event.logError e) = 1)) ∧
    ((f = DispatchError.cancellation →
        (resolve renv codeAction).2 = Except.ok codeAction ∧
        ∀ x, Event.logError x ∉ (resolve renv codeAction).1) ∧
     (∀ m, f = DispatchError.configuration m →
        (resolve renv codeAction).2 = Except.ok codeAction ∧
        (resolve renv codeAction).1.count (Event.logError f) = 1) ∧
     (∀ m, f = DispatchError.phpcs m →
        (resolve renv codeAction).2 = Except.ok codeAction ∧
        (resolve renv codeAction).1.count (Event.logError f) = 1)) := by
  have htr : (update env document lintAction).1 =
      Event.linterStart :: (updateChain env document lintAction).1 ++ (updateCatch e).1 := by
    rw [update_trace_shape env document lintAction htok, herr]
  have hout : (update env document lintAction).2 = (updateCatch e).2 := by
    rw [update_outcome_shape env document lintAction htok, herr]
  have hrtr : (resolve renv codeAction).1 =
      (resolveChain renv rdoc diagnostic).1 ++ (resolveCatch codeAction f).1 := by
    rw [resolve_trace_shape renv codeAction rdoc diagnostic hdoc hdiag hrtok, hrerr]
  have hrout : (resolve renv codeAction).2 = (resolveCatch codeAction f).2 := by
    rw [resolve_outcome_shape renv codeAction rdoc diagnostic hdoc hdiag hrtok, hrerr]
  have huc : ∀ x, (updateChain env document lintAction).1.count (Event.logError x) = 0 :=
    fun x => List.count_eq_zero.mpr (updateChain_no_logError env document lintAction x)
  have hrc : ∀ x, (resolveChain renv rdoc diagnostic).1.count (Event.logError x) = 0 :=
    fun x => List.count_eq_zero.mpr (resolveChain_no_logError renv rdoc diagnostic x)
  refine ⟨⟨?_, ?_, ?_⟩, ?_, ?_, ?_⟩
  · intro hc
    subst hc
    refine ⟨hout, fun x hmem => ?_⟩
    rw [htr] at hmem
    simp only [updateCatch, List.append_nil, List.cons_append, List.mem_cons,
      List.mem_append] at hmem
    rcases hmem with h | h
    · exact absurd h (by simp)
    · exact updateChain_no_logError env document lintAction x h
  · intro m hm
    subst hm
    refine ⟨hout, ?_⟩
    rw [htr]
    simp [updateCatch, List.count_append, List.count_cons, huc]
  · intro m hm
    subst hm
    refine ⟨hout, ?_⟩
    rw [htr]
    simp [updateCatch, List.count_append, List.count_cons, huc]
  · intro hc
    subst hc
    refine ⟨hrout, fun x hmem => ?_⟩
    rw [hrtr] at hmem
    simp only [resolveCatch, List.append_nil, List.mem_append] at hmem
    exact resolveChain_no_logError renv rdoc diagnostic x hmem
  · intro m hm
    subst hm
    refine ⟨hrout, ?_⟩
    rw [hrtr]
    simp [resolveCatch, List.count_append, List.count_cons, hrc]
  · intro m hm
    subst hm
    refine ⟨hrout, ?_⟩
    rw [hrtr]
    simp [resolveCatch, List.count_append, List.count_cons, hrc]

/-- An update environment whose configuration fetch rejects with a
configuration error. -/
def configFailEnv : UpdateEnv :=
  { token := some ()
    configResult := Except.error (DispatchError.configuration "invalid executable")
    workspaceUri := { fsPath := "/project" }
    poolResult := Except.ok ()
    executeResult := Except.ok none }

/-- A resolve environment whose worker rejects with a PHPCS error. -/
def phpcsFailResolveEnv : ResolveEnv :=
  { token := some ()
    configResult := Except.ok openConfig
    workspaceUri := { fsPath := "/project" }
    poolResult := Except.ok ()
    configResult2 := Except.ok openConfig
    executeResult := Except.error (DispatchError.phpcs "Fatal error") }

/-- C3 witness: a configuration error in `update` and a PHPCS error in
`resolve` are each logged once and recovered from, at concrete inputs. -/
theorem catch_error_classification_witness :
    ((update configFailEnv sampleDocument LintAction.change).2 = Except.ok () ∧
     (update configFailEnv sampleDocument LintAction.change).1.count
       (Event.logError (DispatchError.configuration "invalid executable")) = 1) ∧
    ((resolve phpcsFailResolveEnv sampleCodeAction).2 = Except.ok sampleCodeAction ∧
     (resolve phpcsFailResolveEnv sampleCodeAction).1.count
       (Event.logError (DispatchError.phpcs "Fatal error")) = 1) := by
  obtain ⟨⟨_, hu, _⟩, _, _, hr⟩ :=
    catch_error_classification configFailEnv sampleDocument LintAction.change
      (DispatchError.configuration "invalid executable")
      phpcsFailResolveEnv sampleCodeAction sampleDocument sampleDiagnostic
      (DispatchError.phpcs "Fatal error")
      rfl rfl rfl rfl rfl rfl
  exact ⟨hu "invalid executable" rfl, hr "Fatal error" rfl⟩

/-- C8: an error reaching a dispatcher's catch handler that is none of
cancellation, configuration error, PHPCS error (or, for `update` only,
the update-prevented short-circuit) is re-thrown unchanged. -/
theorem unknown_error_rethrown
    (env : UpdateEnv) (document : TextDocument) (lintAction : LintAction)
    (e : DispatchError)
    (renv : ResolveEnv) (codeAction : CodeAction) (rdoc : TextDocument)
    (diagnostic : Diagnostic) (f : DispatchError)
    (htok : env.token = some ())
    (herr : (updateChain env document lintAction).2 = Except.error e)
    (hdoc : codeAction.document = some rdoc)
    (hdiag : codeAction.diagnostics = some [diagnostic])
    (hrtok : renv.token = some ())
    (hrerr : (resolveChain renv rdoc diagnostic).2 = Except.error f)
    (hne1 : e ≠ DispatchError.cancellation)
    (hne2 : ∀ m, e ≠ DispatchError.configuration m)
    (hne3 : ∀ m, e ≠ DispatchError.phpcs m)
    (hne4 : e ≠ DispatchError.updatePrevented)
    (hf1 : f ≠ DispatchError.cancellation)
    (hf2 : ∀ m, f ≠ DispatchError.configuration m)
    (hf3 : ∀ m, f ≠ DispatchError.phpcs m) :
    (update env document lintAction).2 = Except.error e ∧
    (resolve renv codeAction).2 = Except.error f := by
  have hout : (update env document lintAction).2 = (updateCatch e).2 := by
    rw [update_outcome_shape env document lintAction htok, herr]
  have hrout : (resolve renv codeAction).2 = (resolveCatch codeAction f).2 := by
    rw [resolve_outcome_shape renv codeAction rdoc diagnostic hdoc hdiag hrtok, hrerr]
  constructor
  · rw [hout]
    rcases e with _ | m | m | _ | m
    · exact absurd rfl hne1
    · exact absurd rfl (hne2 m)
    · exact absurd rfl (hne3 m)
    · exact absurd rfl hne4
    · rfl
  · rw [hrout]
    rcases f with _ | m | m | _ | m
    · exact absurd rfl hf1
    · exact absurd rfl (hf2 m)
    · exact absurd rfl (hf3 m)
    · rfl
    · rfl

/-- An update environment whose configuration fetch rejects with an
unknown error. -/
def unknownFailEnv : UpdateEnv :=
  { token := some ()
    configResult := Except.error (DispatchError.unknown "boom")
    workspaceUri := { fsPath := "/project" }
    poolResult := Except.ok ()
    executeResult := Except.ok none }

/-- A resolve environment whose pool request rejects with an unknown
error. -/
def unknownFailResolveEnv : ResolveEnv :=
  { token := some ()
    configResult := Except.ok openConfig
    workspaceUri := { fsPath := "/project" }
    poolResult := Except.error (DispatchError.unknown "kaput")
    configResult2 := Except.ok openConfig
    executeResult := Except.ok none }

/-- C8 witness: unknown errors are re-thrown by both dispatchers, at
concrete inputs. -/
theorem unknown_error_rethrown_witness :
    (update unknownFailEnv sampleDocument LintAction.change).2 =
      Except.error (DispatchError.unknown "boom") ∧
    (resolve unknownFailResolveEnv sampleCodeAction).2 =
      Except.error (DispatchError.unknown "kaput") :=
  unknown_error_rethrown unknownFailEnv sampleDocument LintAction.change
    (DispatchError.unknown "boom")
    unknownFailResolveEnv sampleCodeAction sampleDocument sampleDiagnostic
    (DispatchError.unknown "kaput")
    rfl rfl rfl rfl rfl rfl
    (by simp) (by simp) (by simp) (by simp) (by simp) (by simp) (by simp)

/-- The `update` chain never deletes the cancellation token. -/
lemma updateChain_no_delete (env : UpdateEnv) (document : TextDocument)
    (lintAction : LintAction) :
    Event.deleteCancellationToken ∉ (updateChain env document lintAction).1 := by
  obtain ⟨tok, cfg, wuri, pool, exec⟩ := env
  rcases cfg with f | config
  · simp [updateChain]
  · rcases pool with f | u <;>
      · simp only [updateChain, clearDocumentEvents]
        split_ifs <;> simp

/-- The `resolve` chain never deletes the cancellation token. -/
lemma resolveChain_no_delete (env : ResolveEnv) (document : TextDocument)
    (diagnostic : Diagnostic) :
    Event.deleteCancellationToken ∉ (resolveChain env document diagnostic).1 := by
  obtain ⟨tok, cfg, wuri, pool, cfg2, exec⟩ := env
  rcases cfg with f | c1 <;> rcases pool with f | u <;> rcases cfg2 with f | c2 <;>
    simp [resolveChain]

/-- The catch handler of `update` never deletes the cancellation token. -/
lemma updateCatch_no_delete (e : DispatchError) :
    Event.deleteCancellationToken ∉ (updateCatch e).1 := by
  cases e <;> simp [updateCatch]

/-- The catch handler of `resolve` never deletes the cancellation token. -/
lemma resolveCatch_no_delete (codeAction : CodeAction) (e : DispatchError) :
    Event.deleteCancellationToken ∉ (resolveCatch codeAction e).1 := by
  cases e <;> simp [resolveCatch]

/-- The success handler of `update` deletes the cancellation token exactly
once. -/
lemma updateOnResponse_count_delete (document : TextDocument)
    (report? : Option DiagnosticReport) :
    (updateOnResponse document report?).count Event.deleteCancellationToken = 1 := by
  cases report? <;>
    simp [updateOnResponse, clearDocumentEvents, List.count_cons, List.count_nil]

/-- `updateReachesSuccess` holds exactly when a token was obtained and the
chain succeeded. -/
lemma updateReachesSuccess_iff (env : UpdateEnv) (document : TextDocument)
    (lintAction : LintAction) :
    updateReachesSuccess env document lintAction = true ↔
      (env.token = some () ∧
        ∃ r, (updateChain env document lintAction).2 = Except.ok r) := by
  obtain ⟨tok, cfg, wuri, pool, exec⟩ := env
  rcases tok with _ | u
  · simp [updateReachesSuccess]
  · cases u
    rcases cfg with f | config
    · simp [updateReachesSuccess, updateChain]
    · rcases hex : (config.exclude.any fun pattern => pattern.test document.uri.fsPath) with _ | _
      · rcases hact : preventedByLintAction lintAction config.lintAction with _ | _
        · rcases pool with f | u2
          · simp [updateReachesSuccess, updateChain, hex, hact]
          · rcases exec with f | r <;>
              simp [updateReachesSuccess, updateChain, hex, hact]
        · simp [updateReachesSuccess, updateChain, hex, hact]
      · simp [updateReachesSuccess, updateChain, hex]

/-- `resolveReachesSuccess` holds exactly when the code action is valid, a
token was obtained, and the chain succeeded. -/
lemma resolveReachesSuccess_iff (env : ResolveEnv) (codeAction : CodeAction)
    (document : TextDocument) (diagnostic : Diagnostic)
    (hdoc : codeAction.document = some document)
    (hdiag : codeAction.diagnostics = some [diagnostic]) :
    resolveReachesSuccess env codeAction = true ↔
      (env.token = some () ∧
        ∃ r, (resolveChain env document diagnostic).2 = Except.ok r) := by
  obtain ⟨tok, cfg, wuri, pool, cfg2, exec⟩ := env
  rcases tok with _ | u
  · simp [resolveReachesSuccess, hdoc, hdiag]
  · cases u
    rcases cfg with f | c1
    · simp [resolveReachesSuccess, resolveChain, hdoc, hdiag]
    · rcases pool with f | u2
      · simp [resolveReachesSuccess, resolveChain, hdoc, hdiag]
      · rcases cfg2 with f | c2
        · simp [resolveReachesSuccess, resolveChain, hdoc, hdiag]
        · rcases exec with f | r <;>
            simp [resolveReachesSuccess, resolveChain, hdoc, hdiag]

/-- An invalid code action (no document, no diagnostics list, or not
exactly one diagnostic) is returned unchanged with no effects, and such a
run never counts as reaching the success handler. -/
lemma resolve_invalid_identity (env : ResolveEnv) (codeAction : CodeAction)
    (h : codeAction.document = none ∨ codeAction.diagnostics = none ∨
      ∀ ds, codeAction.diagnostics = some ds → ds.length ≠ 1) :
    resolve env codeAction = ([], Except.ok codeAction) ∧
    resolveReachesSuccess env codeAction = false := by
  obtain ⟨t, k, diags, cmd, ed, doc⟩ := codeAction
  rcases doc with _ | document
  · exact ⟨rfl, rfl⟩
  · rcases diags with _ | ds
    · exact ⟨rfl, rfl⟩
    · rcases ds with _ | ⟨d, _ | ⟨d2, rest⟩⟩
      · exact ⟨rfl, rfl⟩
      · rcases h with h | h | h
        · exact absurd h (by simp)
        · exact absurd h (by simp)
        · exact (h [d] rfl rfl).elim
      · exact ⟨rfl, rfl⟩

/-- C2 counterexample: an `update` run that successfully obtains a
cancellation token but whose configuration fetch fails never calls
`deleteCancellationToken`, refuting "called exactly once on every exit
path (success, failure, and cancellation)". -/
theorem end_not_called_on_failure_cex :
    configFailEnv.token = some () ∧
    (update configFailEnv sampleDocument LintAction.change).1.count
      Event.deleteCancellationToken = 0 := by
  exact ⟨rfl, rfl⟩

/-- C2 amended: each dispatcher calls `deleteCancellationToken` exactly
once when it reaches its success handler (a worker response arrived) and
zero times on every other exit path -- in particular on failure and
cancellation exits the token is never deleted. -/
theorem delete_token_on_success_only
    (env : UpdateEnv) (document : TextDocument) (lintAction : LintAction)
    (renv : ResolveEnv) (codeAction : CodeAction) :
    (update env document lintAction).1.count Event.deleteCancellationToken =
      (if updateReachesSuccess env document lintAction then 1 else 0) ∧
    (resolve renv codeAction).1.count Event.deleteCancellationToken =
      (if resolveReachesSuccess renv codeAction then 1 else 0) := by
  constructor
  · rcases htok : env.token with _ | u
    · simp [update, htok, updateReachesSuccess]
    · cases u
      rw [update_trace_shape env document lintAction htok]
      have h0 : (updateChain env document lintAction).1.count
          Event.deleteCancellationToken = 0 :=
        List.count_eq_zero.mpr (updateChain_no_delete env document lintAction)
      rcases hc : (updateChain env document lintAction).2 with f | report?
      · have hs : updateReachesSuccess env document lintAction = false := by
          rcases hss : updateReachesSuccess env document lintAction
          · rfl
          · obtain ⟨_, r, hr⟩ := (updateReachesSuccess_iff env document lintAction).mp hss
            rw [hc] at hr
            cases hr
        have h1 : ((updateCatch f).1).count Event.deleteCancellationToken = 0 :=
          List.count_eq_zero.mpr (updateCatch_no_delete f)
        simp [hc, hs, List.count_append, List.count_cons, h0, h1]
      · have hs : updateReachesSuccess env document lintAction = true :=
          (updateReachesSuccess_iff env document lintAction).mpr ⟨htok, report?, hc⟩
        simp [hc, hs, List.count_append, List.count_cons, h0,
          updateOnResponse_count_delete]
  · obtain ⟨t, k, diags, cmd, ed, doc⟩ := codeAction
    rcases doc with _ | document'
    · obtain ⟨h1, h2⟩ := resolve_invalid_identity renv
        { title := t, kind := k, diagnostics := diags, command := cmd,
          edit := ed, document := none } (Or.inl rfl)
      rw [h1, h2]
      rfl
    · rcases diags with _ | ds
      · obtain ⟨h1, h2⟩ := resolve_invalid_identity renv
          { title := t, kind := k, diagnostics := none, command := cmd,
            edit := ed, document := some document' } (Or.inr (Or.inl rfl))
        rw [h1, h2]
        rfl
      · rcases ds with _ | ⟨d, _ | ⟨d2, rest⟩⟩
        · obtain ⟨h1, h2⟩ := resolve_invalid_identity renv
            { title := t, kind := k, diagnostics := some [], command := cmd,
              edit := ed, document := some document' }
            (Or.inr (Or.inr (fun ds' hds => by cases hds; simp)))
          rw [h1, h2]
          rfl
        · rcases htok : renv.token with _ | u
          · simp [resolve, htok, resolveReachesSuccess]
          · cases u
            have hiff := resolveReachesSuccess_iff renv
              { title := t, kind := k, diagnostics := some [d], command := cmd,
                edit := ed, document := some document' } document' d rfl rfl
            rw [resolve_trace_shape renv
              { title := t, kind := k, diagnostics := some [d], command := cmd,
                edit := ed, document := some document' } document' d rfl rfl htok]
            have h0 : (resolveChain renv document' d).1.count
                Event.deleteCancellationToken = 0 :=
              List.count_eq_zero.mpr (resolveChain_no_delete renv document' d)
            rcases hc : (resolveChain renv document' d).2 with f | report?
            · have hs : resolveReachesSuccess renv
                  { title := t, kind := k, diagnostics := some [d], command := cmd,
                    edit := ed, document := some document' } = false := by
                rcases hss : resolveReachesSuccess renv
                    { title := t, kind := k, diagnostics := some [d], command := cmd,
                      edit := ed, document := some document' }
                · rfl
                · obtain ⟨_, r, hr⟩ := hiff.mp hss
                  rw [hc] at hr
                  cases hr
              have h1 : ((resolveCatch
                  { title := t, kind := k, diagnostics := some [d], command := cmd,
                    edit := ed, document := some document' } f).1).count
                  Event.deleteCancellationToken = 0 :=
                List.count_eq_zero.mpr (resolveCatch_no_delete _ f)
              simp [hc, hs, List.count_append, h0, h1]
            · have hs : resolveReachesSuccess renv
                  { title := t, kind := k, diagnostics := some [d], command := cmd,
                    edit := ed, document := some document' } = true :=
                hiff.mpr ⟨htok, report?, hc⟩
              simp [hc, hs, List.count_append, List.count_cons, h0]
        · obtain ⟨h1, h2⟩ := resolve_invalid_identity renv
            { title := t, kind := k, diagnostics := some (d :: d2 :: rest),
              command := cmd, edit := ed, document := some document' }
            (Or.inr (Or.inr (fun ds' hds => by cases hds; simp)))
          rw [h1, h2]
          rfl
